import Mathlib

/-!
Shallow embedding of the TaskFlow request handlers (Next.js API routes over a
hosted Postgres/auth/storage service) and proofs about them.

The store is modelled as in-memory lists of rows; each API route handler is
translated into a pure Lean function over that state.  External-service calls
that can fail (object-storage upload/remove, database insert/delete) take their
success from an explicit environment record.  Timestamps are integers
(milliseconds); the pair of `now` and `todayStart` stands for `new Date()` and
`new Date(y, m, d)` in the handlers.
-/

namespace TaskFlow

/-- One day in milliseconds (`24 * 60 * 60 * 1000` in the source). -/
def dayMs : Int := 86400000

/-- The request-time clock: `now` is `new Date()`, `todayStart` is
`new Date(now.getFullYear(), now.getMonth(), now.getDate())` (local midnight).
A realistic clock satisfies `todayStart ≤ now < todayStart + dayMs`. -/
structure Clock where
  now : Int
  todayStart : Int
deriving Repr, DecidableEq

/-- A row of the `tasks` table (`null`able columns are `Option`). -/
structure Task where
  id : String
  user_id : String
  project_id : Option String
  title : String
  description : Option String
  status : String
  priority : String
  due_date : Option Int
  estimated_time : Option Int
  actual_time : Option Int
  tags : List String
  position : Int
  created_at : Int
  updated_at : Int
deriving Repr, DecidableEq

/-- A row of the `projects` table. -/
structure Project where
  id : String
  user_id : String
  name : String
  description : Option String
  color : String
  is_archived : Bool
  created_at : Int
deriving Repr, DecidableEq

/-- A row of the `file_attachments` table. -/
structure Attachment where
  id : String
  task_id : String
  user_id : String
  filename : String
  original_filename : String
  file_size : Nat
  mime_type : String
  file_path : String
  created_at : Int
deriving Repr, DecidableEq

/-- JavaScript truthiness of a string-or-null value (`if (x)`): `null`,
`undefined` and the empty string are falsy. -/
def jsTruthy : Option String → Bool
  | none => false
  | some s => !(s == "")

/-- JavaScript `x || null` on a string-or-null value. -/
def jsOrNull : Option String → Option String
  | none => none
  | some s => if s == "" then none else some s

/-- JavaScript `x || d` on a string-or-null value with string default. -/
def jsOrString (o : Option String) (d : String) : String :=
  match o with
  | none => d
  | some s => if s == "" then d else s

/-- JavaScript `x || 0` on a number-or-null value (`lastTask?.position || 0`). -/
def jsOrZero : Option Int → Int
  | none => 0
  | some p => if p == 0 then 0 else p

/-- Outcome of a handler, tagged like the HTTP statuses the routes return. -/
inductive ApiResult (α : Type) where
  | ok : α → ApiResult α
  | badRequest : String → ApiResult α
  | notFound : String → ApiResult α
  | serverError : String → ApiResult α
deriving Repr, DecidableEq

/-- SQL `lo <= due AND due < hi` (`NULL` compares to nothing). -/
def dueWithin (due : Option Int) (lo hi : Int) : Bool :=
  match due with
  | some d => decide (lo ≤ d) && decide (d < hi)
  | none => false

/-- SQL `due < hi` (`NULL` compares to nothing). -/
def dueBefore (due : Option Int) (hi : Int) : Bool :=
  match due with
  | some d => decide (d < hi)
  | none => false

/-- The `date_filter` switch of `GET /api/tasks`; an unknown keyword adds no
constraint.  `overdue` compares against `today` (local midnight), which is how
the source computes it. -/
def matchesDateFilter (clk : Clock) (df : String) (due : Option Int) : Bool :=
  let today := clk.todayStart
  let tomorrow := today + dayMs
  let nextWeek := today + 7 * dayMs
  let nextMonth := today + 30 * dayMs
  if df == "today" then dueWithin due today tomorrow
  else if df == "tomorrow" then dueWithin due tomorrow (tomorrow + dayMs)
  else if df == "this_week" then dueWithin due today nextWeek
  else if df == "next_week" then dueWithin due nextWeek (nextWeek + 7 * dayMs)
  else if df == "this_month" then dueWithin due today nextMonth
  else if df == "overdue" then dueBefore due today
  else if df == "no_due_date" then due.isNone
  else true

/-- `col ilike '%pat%'`: case-insensitive substring containment. -/
def ilikeContains (pat s : String) : Bool :=
  decide ((pat.toLower).toList <:+: (s.toLower).toList)

/-- The `.or('title.ilike.%s%,description.ilike.%s%')` clause; a `NULL`
description matches nothing. -/
def searchMatches (s : String) (t : Task) : Bool :=
  ilikeContains s t.title ||
    (match t.description with
     | some d => ilikeContains s d
     | none => false)

/-- The query parameters of `GET /api/tasks` (absent = `none`). -/
structure TaskQuery where
  project_id : Option String
  status : Option String
  priority : Option String
  search : Option String
  date_filter : Option String
  tag_filter : Option String
deriving Repr, DecidableEq

/-- A request with no query parameters. -/
def emptyQuery : TaskQuery := ⟨none, none, none, none, none, none⟩

/-- The combined filter the `GET /api/tasks` handler builds from its query
parameters (each `if (param)` guard is JS truthiness). -/
def matchesQuery (clk : Clock) (q : TaskQuery) (t : Task) : Bool :=
  (match jsOrNull q.project_id with
   | some pid => t.project_id == some pid
   | none => true) &&
  (match jsOrNull q.status with
   | some st => t.status == st
   | none => true) &&
  (match jsOrNull q.priority with
   | some pr => t.priority == pr
   | none => true) &&
  (match jsOrNull q.search with
   | some s => searchMatches s t
   | none => true) &&
  (match jsOrNull q.date_filter with
   | some df => matchesDateFilter clk df t.due_date
   | none => true) &&
  (match jsOrNull q.tag_filter with
   | some tg => t.tags.contains tg
   | none => true)

/-- Task read order: `position` ascending, ties by `created_at` descending. -/
def taskLE (a b : Task) : Prop :=
  a.position < b.position ∨ (a.position = b.position ∧ b.created_at ≤ a.created_at)

instance : DecidableRel taskLE := fun a b =>
  decidable_of_iff
    (a.position < b.position ∨ (a.position = b.position ∧ b.created_at ≤ a.created_at))
    Iff.rfl

instance : IsTotal Task taskLE := by
  constructor
  intro a b
  unfold taskLE
  omega

instance : IsTrans Task taskLE := by
  constructor
  intro a b c hab hbc
  unfold taskLE at hab hbc ⊢
  omega

/-- `order('position', asc).order('created_at', desc)`. -/
def sortTasks (l : List Task) : List Task :=
  l.insertionSort taskLE

/-- `GET /api/tasks`: the caller's rows satisfying the filters, in read order. -/
def getTasks (clk : Clock) (tasks : List Task) (uid : String) (q : TaskQuery) : List Task :=
  sortTasks (tasks.filter (fun t => t.user_id == uid && matchesQuery clk q t))

/-- Request body of `POST /api/tasks` (absent field = `none`). -/
structure CreateTaskBody where
  title : Option String
  description : Option String
  project_id : Option String
  status : Option String
  priority : Option String
  due_date : Option Int
  estimated_time : Option Int
  tags : Option (List String)
deriving Repr, DecidableEq

/-- The `select('position').eq(user).eq(project).order(desc).limit(1)` read in
`POST /api/tasks`: the greatest position in the (owner, project) scope, if the
scope has any rows. -/
def lastScopePosition (tasks : List Task) (uid : String) (pid : Option String) : Option Int :=
  ((tasks.filter (fun t => t.user_id == uid && t.project_id == pid)).map Task.position).max?

/-- `const nextPosition = (lastTask?.position || 0) + 1`. -/
def nextPosition (tasks : List Task) (uid : String) (pid : Option String) : Int :=
  jsOrZero (lastScopePosition tasks uid pid) + 1

/-- `POST /api/tasks`: reject a falsy title, otherwise insert a row at
`nextPosition` with the source's defaults; `newId`/`now` stand for the
database-generated id and timestamps. -/
def createTask (tasks : List Task) (uid : String) (b : CreateTaskBody)
    (newId : String) (now : Int) : ApiResult Task × List Task :=
  if !(jsTruthy b.title) then (.badRequest "Task title is required", tasks)
  else
    let pos := nextPosition tasks uid (jsOrNull b.project_id)
    let t : Task :=
      { id := newId
        user_id := uid
        project_id := b.project_id
        title := b.title.getD ""
        description := b.description
        status := jsOrString b.status "todo"
        priority := jsOrString b.priority "medium"
        due_date := b.due_date
        estimated_time := b.estimated_time
        actual_time := none
        tags := b.tags.getD []
        position := pos
        created_at := now
        updated_at := now }
    (.ok t, tasks ++ [t])

/-- `GET /api/tasks/[id]`: the row with that id owned by the caller. -/
def getTask (tasks : List Task) (uid tid : String) : Option Task :=
  (tasks.filter (fun t => t.id == tid && t.user_id == uid)).head?

/-- Request body of `PUT /api/tasks/[id]`.  The handler puts the ten
destructured fields into the update object; a field absent from the JSON body
is `undefined` and is dropped from the serialized update, so it is not
written.  The outer `Option` is presence in the body; the inner `Option` of a
nullable column is the written value. -/
structure UpdateTaskBody where
  title : Option String
  description : Option (Option String)
  project_id : Option (Option String)
  status : Option String
  priority : Option String
  due_date : Option (Option Int)
  estimated_time : Option (Option Int)
  actual_time : Option (Option Int)
  tags : Option (List String)
  position : Option Int
deriving Repr, DecidableEq

/-- The column writes of the `PUT /api/tasks/[id]` update object applied to one
row: present fields overwrite, absent fields keep the stored value. -/
def applyTaskUpdate (b : UpdateTaskBody) (t : Task) : Task :=
  { t with
    title := b.title.getD t.title
    description := b.description.getD t.description
    project_id := b.project_id.getD t.project_id
    status := b.status.getD t.status
    priority := b.priority.getD t.priority
    due_date := b.due_date.getD t.due_date
    estimated_time := b.estimated_time.getD t.estimated_time
    actual_time := b.actual_time.getD t.actual_time
    tags := b.tags.getD t.tags
    position := b.position.getD t.position }

/-- `PUT /api/tasks/[id]`: `update(...).eq('id', tid).eq('user_id', uid)`. -/
def updateTaskRows (tasks : List Task) (uid tid : String) (b : UpdateTaskBody) : List Task :=
  tasks.map (fun t => if t.id == tid && t.user_id == uid then applyTaskUpdate b t else t)

/-- `DELETE /api/tasks/[id]`: `delete().eq('id', tid).eq('user_id', uid)`. -/
def deleteTaskRows (tasks : List Task) (uid tid : String) : List Task :=
  tasks.filter (fun t => !(t.id == tid && t.user_id == uid))

/-- One step of the `PUT /api/tasks/reorder` loop:
`update({position}).eq('id', tid).eq('user_id', uid)`. -/
def applyPositionUpdate (tasks : List Task) (uid tid : String) (pos : Int) : List Task :=
  tasks.map (fun t => if t.id == tid && t.user_id == uid then { t with position := pos } else t)

/-- `PUT /api/tasks/reorder`: each listed id is assigned `position := index`,
one row-update at a time, in list order. -/
def reorderTasks (tasks : List Task) (uid : String) (taskIds : List String) : List Task :=
  taskIds.enum.foldl (fun acc u => applyPositionUpdate acc uid u.2 (u.1 : Int)) tasks

/-- Project read order: `created_at` descending. -/
def projLE (a b : Project) : Prop := b.created_at ≤ a.created_at

instance : DecidableRel projLE := fun a b =>
  decidable_of_iff (b.created_at ≤ a.created_at) Iff.rfl

instance : IsTotal Project projLE := by
  constructor
  intro a b
  unfold projLE
  omega

instance : IsTrans Project projLE := by
  constructor
  intro a b c hab hbc
  unfold projLE at hab hbc ⊢
  omega

/-- `GET /api/projects`: the caller's projects, archived ones only when
`include_archived=true`, newest first. -/
def getProjects (projects : List Project) (uid : String) (includeArchived : Bool) : List Project :=
  (projects.filter (fun p => p.user_id == uid && (includeArchived || p.is_archived == false))).insertionSort projLE

/-- Request body of `POST /api/projects`. -/
structure CreateProjectBody where
  name : Option String
  description : Option String
  color : Option String
deriving Repr, DecidableEq

/-- `POST /api/projects`: reject a falsy name, default the color. -/
def createProject (projects : List Project) (uid : String) (b : CreateProjectBody)
    (newId : String) (now : Int) : ApiResult Project × List Project :=
  if !(jsTruthy b.name) then (.badRequest "Project name is required", projects)
  else
    let p : Project :=
      { id := newId
        user_id := uid
        name := b.name.getD ""
        description := b.description
        color := jsOrString b.color "#f2766b"
        is_archived := false
        created_at := now }
    (.ok p, projects ++ [p])

/-- `GET /api/projects/[id]`. -/
def getProject (projects : List Project) (uid pid : String) : Option Project :=
  (projects.filter (fun p => p.id == pid && p.user_id == uid)).head?

/-- Request body of `PUT /api/projects/[id]` (same presence semantics as the
task update body). -/
structure UpdateProjectBody where
  name : Option String
  description : Option (Option String)
  color : Option String
  is_archived : Option Bool
deriving Repr, DecidableEq

/-- Column writes of the `PUT /api/projects/[id]` update object on one row. -/
def applyProjectUpdate (b : UpdateProjectBody) (p : Project) : Project :=
  { p with
    name := b.name.getD p.name
    description := b.description.getD p.description
    color := b.color.getD p.color
    is_archived := b.is_archived.getD p.is_archived }

/-- `PUT /api/projects/[id]`: `update(...).eq('id', pid).eq('user_id', uid)`. -/
def updateProjectRows (projects : List Project) (uid pid : String) (b : UpdateProjectBody) : List Project :=
  projects.map (fun p => if p.id == pid && p.user_id == uid then applyProjectUpdate b p else p)

/-- `DELETE /api/projects/[id]`. -/
def deleteProjectRows (projects : List Project) (uid pid : String) : List Project :=
  projects.filter (fun p => !(p.id == pid && p.user_id == uid))

/-- The uploaded file of the multipart `file` field. -/
structure FileUpload where
  name : String
  size : Nat
  mime : String
deriving Repr, DecidableEq

/-- Success/failure of the external-service calls a handler may issue
(object-storage upload and remove, database insert and delete). -/
structure StoreEnv where
  uploadOk : Bool
  insertOk : Bool
  removeOk : Bool
  deleteOk : Bool
deriving Repr, DecidableEq

/-- An I/O request issued to the database or the object store, in order. -/
inductive Effect where
  | storageUpload : String → Effect
  | storageRemove : String → Effect
  | dbInsert : String → Effect
  | dbDelete : String → Effect
deriving Repr, DecidableEq

/-- `const MAX_FILE_SIZE = 10 * 1024 * 1024`. -/
def maxFileSize : Nat := 10 * 1024 * 1024

/-- Result state of the attachment upload handler: outcome, object-store
contents (paths), `file_attachments` rows, and the I/O trace. -/
structure UploadOutcome where
  result : ApiResult Attachment
  storage : List String
  attachments : List Attachment
  trace : List Effect
deriving Repr, DecidableEq

/-- `POST /api/tasks/[id]/attachments`: size check before any store I/O;
upload the bytes; insert the row; on insert failure attempt (fire-and-forget)
to remove the uploaded bytes.  `newName`/`newId` stand for the generated
unique filename and row id. -/
def uploadAttachment (env : StoreEnv) (storage : List String) (atts : List Attachment)
    (uid taskId : String) (file : Option FileUpload) (newName newId : String)
    (now : Int) : UploadOutcome :=
  match file with
  | none => ⟨.badRequest "No file uploaded", storage, atts, []⟩
  | some f =>
    if f.size > maxFileSize then
      ⟨.badRequest "File size exceeds 10MB limit", storage, atts, []⟩
    else
      let filePath := uid ++ "/" ++ taskId ++ "/" ++ newName
      if !env.uploadOk then
        ⟨.serverError "storage upload failed", storage, atts, [.storageUpload filePath]⟩
      else
        let storage1 := storage ++ [filePath]
        if !env.insertOk then
          let storage2 := if env.removeOk then storage1.filter (fun p => !(p == filePath)) else storage1
          ⟨.serverError "database insert failed", storage2, atts,
            [.storageUpload filePath, .dbInsert newId, .storageRemove filePath]⟩
        else
          let a : Attachment :=
            { id := newId
              task_id := taskId
              user_id := uid
              filename := newName
              original_filename := f.name
              file_size := f.size
              mime_type := f.mime
              file_path := filePath
              created_at := now }
          ⟨.ok a, storage1, atts ++ [a], [.storageUpload filePath, .dbInsert newId]⟩

/-- The user-scoped record lookup of the attachment delete handler. -/
def findAttachment (atts : List Attachment) (uid taskId attachmentId : String) : Option Attachment :=
  (atts.filter (fun a => a.id == attachmentId && a.task_id == taskId && a.user_id == uid)).head?

/-- Result state of the attachment delete handler. -/
structure DeleteOutcome where
  result : ApiResult String
  storage : List String
  attachments : List Attachment
  trace : List Effect
deriving Repr, DecidableEq

/-- `DELETE /api/tasks/[id]/attachments/[attachmentId]`: look up the record,
remove the stored bytes first (abort on failure, record kept), then delete the
database row. -/
def deleteAttachment (env : StoreEnv) (storage : List String) (atts : List Attachment)
    (uid taskId attachmentId : String) : DeleteOutcome :=
  match findAttachment atts uid taskId attachmentId with
  | none => ⟨.notFound "Attachment not found or unauthorized", storage, atts, []⟩
  | some a =>
    if !env.removeOk then
      ⟨.serverError "storage removal failed", storage, atts, [.storageRemove a.file_path]⟩
    else
      let storage1 := storage.filter (fun p => !(p == a.file_path))
      if !env.deleteOk then
        ⟨.serverError "database delete failed", storage1, atts,
          [.storageRemove a.file_path, .dbDelete a.id]⟩
      else
        ⟨.ok "Attachment deleted successfully", storage1,
          atts.filter (fun x => !(x.id == attachmentId && x.task_id == taskId && x.user_id == uid)),
          [.storageRemove a.file_path, .dbDelete a.id]⟩

/-- Attachment read order: `created_at` descending. -/
def attLE (a b : Attachment) : Prop := b.created_at ≤ a.created_at

instance : DecidableRel attLE := fun a b =>
  decidable_of_iff (b.created_at ≤ a.created_at) Iff.rfl

instance : IsTotal Attachment attLE := by
  constructor
  intro a b
  unfold attLE
  omega

instance : IsTrans Attachment attLE := by
  constructor
  intro a b c hab hbc
  unfold attLE at hab hbc ⊢
  omega

/-- `GET /api/tasks/[id]/attachments`. -/
def listAttachments (atts : List Attachment) (uid taskId : String) : List Attachment :=
  (atts.filter (fun a => a.task_id == taskId && a.user_id == uid)).insertionSort attLE

/-- `GET /api/files/[filename]`: the user-scoped record lookup that yields the
storage path, original filename and MIME type served back. -/
def downloadFileRecord (atts : List Attachment) (uid filename : String) : Option Attachment :=
  (atts.filter (fun a => a.filename == filename && a.user_id == uid)).head?

/-- Task recency order for the dashboard: `created_at` descending. -/
def taskCreatedDesc (a b : Task) : Prop := b.created_at ≤ a.created_at

instance : DecidableRel taskCreatedDesc := fun a b =>
  decidable_of_iff (b.created_at ≤ a.created_at) Iff.rfl

instance : IsTotal Task taskCreatedDesc := by
  constructor
  intro a b
  unfold taskCreatedDesc
  omega

instance : IsTrans Task taskCreatedDesc := by
  constructor
  intro a b c hab hbc
  unfold taskCreatedDesc at hab hbc ⊢
  omega

/-- `Math.round` on a rational: round half away from zero is `⌊x + 1/2⌋` for
the non-negative values that arise here, which is JavaScript's behavior. -/
def jsRound (q : ℚ) : Int := ⌊q + 1 / 2⌋

/-- The response record of `GET /api/dashboard/stats`. -/
structure DashboardStats where
  totalTasks : Nat
  completedTasks : Nat
  inProgressTasks : Nat
  overdueTasks : Nat
  tasksDueToday : Nat
  totalProjects : Nat
  completionRate : Int
  recentTasks : List Task
deriving Repr, DecidableEq

/-- `GET /api/dashboard/stats`: the six user-scoped counts, the completion
rate, and the five most recent tasks of the last seven days.  The overdue
count requires `status = 'todo'` and compares `due_date` against `now`
(`new Date().toISOString()`); the due-today window is
`[startOfDay, endOfDay)`. -/
def dashboardStats (clk : Clock) (tasks : List Task) (projects : List Project)
    (uid : String) : DashboardStats :=
  let totalTasks := tasks.countP (fun t => t.user_id == uid)
  let completedTasks := tasks.countP (fun t => t.user_id == uid && t.status == "completed")
  let inProgressTasks := tasks.countP (fun t => t.user_id == uid && t.status == "in-progress")
  let overdueTasks := tasks.countP
    (fun t => t.user_id == uid && t.status == "todo" && dueBefore t.due_date clk.now)
  let tasksDueToday := tasks.countP
    (fun t => t.user_id == uid && !(t.status == "completed") &&
      dueWithin t.due_date clk.todayStart (clk.todayStart + dayMs))
  let totalProjects := projects.countP (fun p => p.user_id == uid && p.is_archived == false)
  let completionRate :=
    if totalTasks == 0 then 0 else jsRound ((completedTasks : ℚ) / (totalTasks : ℚ) * 100)
  let sevenDaysAgo := clk.now - 7 * dayMs
  let recentTasks :=
    ((tasks.filter (fun t => t.user_id == uid && decide (sevenDaysAgo ≤ t.created_at))).insertionSort
      taskCreatedDesc).take 5
  ⟨totalTasks, completedTasks, inProgressTasks, overdueTasks, tasksDueToday, totalProjects,
    completionRate, recentTasks⟩

/-- The analytics page's time-range restriction:
`tasks.filter(t => new Date(t.created_at) >= startDate)`. -/
def analyticsRecent (startDate : Int) (tasks : List Task) : List Task :=
  tasks.filter (fun t => decide (startDate ≤ t.created_at))

/-- The per-task overdue test of the analytics page:
`t.due_date && new Date(t.due_date) < now && t.status !== 'completed'`. -/
def analyticsOverduePred (now : Int) (t : Task) : Bool :=
  match t.due_date with
  | some d => decide (d < now) && !(t.status == "completed")
  | none => false

/-- The `overdueTasks` metric of the analytics page, over the tasks created in
the selected time range. -/
def analyticsOverdueCount (now startDate : Int) (tasks : List Task) : Nat :=
  (analyticsRecent startDate tasks).countP (analyticsOverduePred now)

/-- The spec's `overdue` selection predicate, stated from the spec's words for
comparison with the handler: "selects tasks whose due timestamp is strictly
before now (independent of status)". -/
def specOverdueSelects (now : Int) (due : Option Int) : Bool :=
  match due with
  | some d => decide (d < now)
  | none => false

/-- The position of the task a create request returned, when it succeeded. -/
def okPosition : ApiResult Task → Option Int
  | ApiResult.ok t => some t.position
  | _ => none

/-- The simultaneous form of the sequential reorder writes: a listed task owned
by the caller gets `position := index of its id`, everything else is
untouched. -/
def reorderFn (uid : String) (ids : List String) (t : Task) : Task :=
  if t.user_id == uid && ids.contains t.id then
    { t with position := (ids.indexOf t.id : Int) }
  else t

/-- The effect of one reorder row-update on one task. -/
def posStep (uid : String) (t : Task) (u : Nat × String) : Task :=
  if t.id == u.2 && t.user_id == uid then { t with position := (u.1 : Int) } else t

/-- The effect of all reorder row-updates, in order, on one task. -/
def posSteps (uid : String) (pairs : List (Nat × String)) (t : Task) : Task :=
  pairs.foldl (posStep uid) t

/- ### Helper lemmas -/

theorem filter_map_eq_filter_of {α : Type} (l : List α) (f : α → α) (p : α → Bool)
    (hfix : ∀ x, p x = true → f x = x) (hpres : ∀ x, p (f x) = p x) :
    (l.map f).filter p = l.filter p := by
  induction l with
  | nil => rfl
  | cons a l ih =>
    simp only [List.map_cons, List.filter_cons]
    rw [hpres a]
    cases ha : p a with
    | false => simpa using ih
    | true => rw [hfix a ha]; simpa using ih

theorem filter_filter_eq_filter {α : Type} (l : List α) (keep p : α → Bool)
    (h : ∀ x, p x = true → keep x = true) :
    (l.filter keep).filter p = l.filter p := by
  induction l with
  | nil => rfl
  | cons a l ih =>
    simp only [List.filter_cons]
    cases hk : keep a with
    | false =>
      cases hp : p a with
      | false => simpa [hp] using ih
      | true => exact absurd (h a hp) (by simp [hk])
    | true =>
      cases hp : p a with
      | false => simpa [List.filter_cons, hp] using ih
      | true => simpa [List.filter_cons, hp] using ih

theorem filter_of_map {α : Type} (l : List α) (f : α → α) (p : α → Bool) :
    (l.map f).filter p = (l.filter (fun x => p (f x))).map f := by
  induction l with
  | nil => rfl
  | cons a l ih =>
    simp only [List.map_cons, List.filter_cons]
    cases h : p (f a) <;> simp [h, ih]

theorem mem_of_head?_filter {α : Type} {l : List α} {p : α → Bool} {a : α}
    (h : (l.filter p).head? = some a) : a ∈ l ∧ p a = true := by
  have hmem : a ∈ l.filter p := by
    cases hl : l.filter p with
    | nil => rw [hl] at h; cases h
    | cons b t =>
      rw [hl] at h
      simp only [List.head?_cons, Option.some.injEq] at h
      subst h
      exact List.mem_cons_self _ _
  exact ⟨(List.mem_filter.1 hmem).1, (List.mem_filter.1 hmem).2⟩

theorem matchesQuery_empty (clk : Clock) (t : Task) : matchesQuery clk emptyQuery t = true := rfl

theorem matchesDateFilter_overdue (clk : Clock) (due : Option Int) :
    matchesDateFilter clk "overdue" due = dueBefore due clk.todayStart := rfl

/-- C1 (counterexample): creating a task with a non-empty title in an empty
(owner, no-project) scope yields position 1, not the position 0 the claim
states, because the handler computes `(lastTask?.position || 0) + 1`. -/
theorem createTask_empty_scope_position_one :
    okPosition (createTask [] "u1" ⟨some "Write report", none, none, none, none, none, none, none⟩ "id1" 0).1 = some 1 ∧
    okPosition (createTask [] "u1" ⟨some "Write report", none, none, none, none, none, none, none⟩ "id1" 0).1 ≠ some 0 := by
  constructor
  · rfl
  · decide

/-- C1 (amended): for every create request with a truthy title, the created
task's position is one greater than the maximum existing position in the
(owner, project-or-none) scope, and is 1 (not 0) when the scope is empty. -/
theorem createTask_position_succ_of_scope_max (tasks : List Task) (uid : String)
    (b : CreateTaskBody) (newId : String) (now : Int) (h : jsTruthy b.title = true) :
    ∃ t : Task, (createTask tasks uid b newId now).1 = ApiResult.ok t ∧
      (lastScopePosition tasks uid (jsOrNull b.project_id) = none → t.position = 1) ∧
      ∀ m : Int, lastScopePosition tasks uid (jsOrNull b.project_id) = some m →
        t.position = m + 1 := by
  unfold createTask
  rw [h]
  simp only [Bool.not_true, Bool.false_eq_true, if_false]
  refine ⟨_, rfl, ?_, ?_⟩
  · intro hnone
    simp [nextPosition, hnone, jsOrZero]
  · intro m hm
    simp only [nextPosition, hm, jsOrZero]
    split
    · next hz => simp only [beq_iff_eq] at hz; omega
    · rfl

/-- Witness for C1's amended theorem at a concrete empty store. -/
theorem createTask_position_succ_of_scope_max_witness :
    ∃ t : Task,
      (createTask [] "u1" ⟨some "Write report", none, none, none, none, none, none, none⟩ "id1" 0).1 =
        ApiResult.ok t ∧
      (lastScopePosition [] "u1" (jsOrNull (none : Option String)) = none → t.position = 1) ∧
      ∀ m : Int, lastScopePosition [] "u1" (jsOrNull (none : Option String)) = some m →
        t.position = m + 1 :=
  createTask_position_succ_of_scope_max [] "u1"
    ⟨some "Write report", none, none, none, none, none, none, none⟩ "id1" 0 (by decide)

/-- C3 (counterexample): at a clock with now = 150 and start of day = 100, the
caller's todo task due at 120 is overdue per the spec's predicate (due before
now) but the handler's `date_filter=overdue` query returns nothing, because
the code compares the due date against the start of the day. -/
theorem overdue_filter_start_of_day_cex :
    specOverdueSelects 150 (some 120) = true ∧
    (100 : Int) ≤ 150 ∧ (150 : Int) < 100 + dayMs ∧
    getTasks ⟨150, 100⟩
      [⟨"t0", "u", none, "a", none, "todo", "medium", some 120, none, none, [], 0, 10, 10⟩]
      "u" ⟨none, none, none, none, some "overdue", none⟩ = [] := by
  refine ⟨rfl, by decide, by decide, ?_⟩
  rfl

/-- C3 (amended): with `date_filter=overdue` the handler returns exactly the
caller's tasks whose due timestamp is strictly before the start of the current
day (not "now"), independent of the task's status. -/
theorem overdue_filter_selects_before_start_of_day (clk : Clock) (tasks : List Task)
    (uid : String) (t : Task) :
    t ∈ getTasks clk tasks uid ⟨none, none, none, none, some "overdue", none⟩ ↔
      t ∈ tasks ∧ t.user_id = uid ∧ dueBefore t.due_date clk.todayStart = true := by
  unfold getTasks sortTasks
  rw [List.mem_insertionSort, List.mem_filter]
  have hq : ∀ x : Task,
      matchesQuery clk ⟨none, none, none, none, some "overdue", none⟩ x =
        (dueBefore x.due_date clk.todayStart && true) := fun x => rfl
  constructor
  · rintro ⟨hmem, hpred⟩
    rw [Bool.and_eq_true, hq, Bool.and_true] at hpred
    exact ⟨hmem, by simpa using hpred.1, hpred.2⟩
  · rintro ⟨hmem, huid, hdue⟩
    refine ⟨hmem, ?_⟩
    rw [Bool.and_eq_true, hq, Bool.and_true]
    exact ⟨by simpa using huid, hdue⟩

/-- C8: the dashboard completion rate is 0 when the caller has no tasks, and
otherwise is `completed / total * 100` rounded to the nearest integer
(`Math.round`, i.e. the floor of the value plus one half), where `total` and
`completed` are the caller's task count and completed-task count. -/
theorem dashboard_completion_rate_formula (clk : Clock) (tasks : List Task)
    (projects : List Project) (uid : String) :
    (tasks.countP (fun t => t.user_id == uid) = 0 →
      (dashboardStats clk tasks projects uid).completionRate = 0) ∧
    (tasks.countP (fun t => t.user_id == uid) ≠ 0 →
      (dashboardStats clk tasks projects uid).completionRate =
        jsRound ((tasks.countP (fun t => t.user_id == uid && t.status == "completed") : ℚ) /
          (tasks.countP (fun t => t.user_id == uid) : ℚ) * 100)) ∧
    ∀ q : ℚ, (jsRound q : ℚ) ≤ q + 1 / 2 ∧ q - 1 / 2 < (jsRound q : ℚ) := by
  refine ⟨?_, ?_, ?_⟩
  · intro h0
    simp [dashboardStats, h0]
  · intro hne
    have : (tasks.countP (fun t => t.user_id == uid) == 0) = false := by
      simp only [beq_eq_false_iff_ne, ne_eq]
      exact hne
    simp [dashboardStats, this]
  · intro q
    constructor
    · exact_mod_cast Int.floor_le (q + 1 / 2)
    · have := Int.lt_floor_add_one (q + 1 / 2)
      unfold jsRound
      push_cast at this ⊢
      linarith

/-- Witness for C8 at an empty store: zero tasks, completion rate 0. -/
theorem dashboard_completion_rate_formula_witness :
    ([] : List Task).countP (fun t => t.user_id == "u") = 0 ∧
    (dashboardStats ⟨0, 0⟩ [] [] "u").completionRate = 0 :=
  ⟨by decide, (dashboard_completion_rate_formula ⟨0, 0⟩ [] [] "u").1 (by decide)⟩

/-- C9: the dashboard stats overdue count requires `status = 'todo'` and a due
timestamp before now, so an overdue in-progress task is not counted there,
while the analytics page counts every overdue task whose status is not
`completed` (over the tasks created in its time range). -/
theorem overdue_dashboard_todo_only_vs_analytics (clk : Clock) (tasks : List Task)
    (projects : List Project) (uid : String) (startDate : Int) (t : Task)
    (hst : t.status = "in-progress") (d : Int) (hd : t.due_date = some d)
    (hlt : d < clk.now) :
    (dashboardStats clk tasks projects uid).overdueTasks =
      tasks.countP (fun x => x.user_id == uid && x.status == "todo" && dueBefore x.due_date clk.now) ∧
    analyticsOverdueCount clk.now startDate tasks =
      (tasks.filter (fun x => decide (startDate ≤ x.created_at))).countP (analyticsOverduePred clk.now) ∧
    (t.user_id == uid && t.status == "todo" && dueBefore t.due_date clk.now) = false ∧
    analyticsOverduePred clk.now t = true := by
  refine ⟨rfl, rfl, ?_, ?_⟩
  · have : (t.status == "todo") = false := by
      rw [hst]
      rfl
    simp [this]
  · unfold analyticsOverduePred
    rw [hd, hst]
    simp [hlt]

/-- Witness for C9: an in-progress task due at 50 with now = 150. -/
theorem overdue_dashboard_todo_only_vs_analytics_witness :
    (dashboardStats ⟨150, 100⟩
        [⟨"t1", "u", none, "b", none, "in-progress", "medium", some 50, none, none, [], 1, 20, 20⟩]
        [] "u").overdueTasks =
      ([⟨"t1", "u", none, "b", none, "in-progress", "medium", some 50, none, none, [], 1, 20, 20⟩] :
          List Task).countP
        (fun x => x.user_id == "u" && x.status == "todo" && dueBefore x.due_date 150) ∧
    analyticsOverdueCount 150 0
        [⟨"t1", "u", none, "b", none, "in-progress", "medium", some 50, none, none, [], 1, 20, 20⟩] =
      (([⟨"t1", "u", none, "b", none, "in-progress", "medium", some 50, none, none, [], 1, 20, 20⟩] :
          List Task).filter (fun x => decide ((0 : Int) ≤ x.created_at))).countP
        (analyticsOverduePred 150) ∧
    ((⟨"t1", "u", none, "b", none, "in-progress", "medium", some 50, none, none, [], 1, 20, 20⟩ :
        Task).user_id == "u" &&
      (⟨"t1", "u", none, "b", none, "in-progress", "medium", some 50, none, none, [], 1, 20, 20⟩ :
        Task).status == "todo" &&
      dueBefore (⟨"t1", "u", none, "b", none, "in-progress", "medium", some 50, none, none, [], 1, 20, 20⟩ :
        Task).due_date 150) = false ∧
    analyticsOverduePred 150
      ⟨"t1", "u", none, "b", none, "in-progress", "medium", some 50, none, none, [], 1, 20, 20⟩ = true :=
  overdue_dashboard_todo_only_vs_analytics ⟨150, 100⟩
    [⟨"t1", "u", none, "b", none, "in-progress", "medium", some 50, none, none, [], 1, 20, 20⟩]
    [] "u" 0
    ⟨"t1", "u", none, "b", none, "in-progress", "medium", some 50, none, none, [], 1, 20, 20⟩
    rfl 50 rfl (by decide)

/-- C10: the single-task update writes exactly the ten updatable fields that
are present in the request body (absent fields keep their stored value), it
never changes a row's id, owning user or creation timestamp, and it touches
only the row matching both the task id and the caller's id. -/
theorem update_task_writes_only_present_fields (tasks : List Task) (uid tid : String)
    (b : UpdateTaskBody) (t : Task) (hmem : t ∈ tasks) :
    (applyTaskUpdate b t).id = t.id ∧
    (applyTaskUpdate b t).user_id = t.user_id ∧
    (applyTaskUpdate b t).created_at = t.created_at ∧
    (applyTaskUpdate b t).title = b.title.getD t.title ∧
    (applyTaskUpdate b t).description = b.description.getD t.description ∧
    (applyTaskUpdate b t).project_id = b.project_id.getD t.project_id ∧
    (applyTaskUpdate b t).status = b.status.getD t.status ∧
    (applyTaskUpdate b t).priority = b.priority.getD t.priority ∧
    (applyTaskUpdate b t).due_date = b.due_date.getD t.due_date ∧
    (applyTaskUpdate b t).estimated_time = b.estimated_time.getD t.estimated_time ∧
    (applyTaskUpdate b t).actual_time = b.actual_time.getD t.actual_time ∧
    (applyTaskUpdate b t).tags = b.tags.getD t.tags ∧
    (applyTaskUpdate b t).position = b.position.getD t.position ∧
    (¬(t.id = tid ∧ t.user_id = uid) → t ∈ updateTaskRows tasks uid tid b) ∧
    (t.id = tid → t.user_id = uid → applyTaskUpdate b t ∈ updateTaskRows tasks uid tid b) := by
  refine ⟨rfl, rfl, rfl, rfl, rfl, rfl, rfl, rfl, rfl, rfl, rfl, rfl, rfl, ?_, ?_⟩
  · intro hneg
    have hcond : (t.id == tid && t.user_id == uid) = false := by
      rw [Bool.and_eq_false_iff]
      by_cases h1 : t.id = tid
      · right
        rw [beq_eq_false_iff_ne]
        exact fun h2 => hneg ⟨h1, h2⟩
      · left
        rw [beq_eq_false_iff_ne]
        exact h1
    have : t = (fun x => if x.id == tid && x.user_id == uid then applyTaskUpdate b x else x) t := by
      simp only [hcond, Bool.false_eq_true, if_false]
    exact this ▸ List.mem_map_of_mem _ hmem
  · intro h1 h2
    have hcond : (t.id == tid && t.user_id == uid) = true := by
      rw [Bool.and_eq_true, beq_iff_eq, beq_iff_eq]
      exact ⟨h1, h2⟩
    have : applyTaskUpdate b t =
        (fun x => if x.id == tid && x.user_id == uid then applyTaskUpdate b x else x) t := by
      simp only [hcond, if_true]
    exact this ▸ List.mem_map_of_mem _ hmem

/-- Witness for C10: a concrete one-row store and a body updating only the
status. -/
theorem update_task_writes_only_present_fields_witness :
    (applyTaskUpdate
        ⟨none, none, none, some "completed", none, none, none, none, none, none⟩
        ⟨"t0", "u", none, "a", none, "todo", "medium", none, none, none, [], 0, 10, 10⟩).id =
      (⟨"t0", "u", none, "a", none, "todo", "medium", none, none, none, [], 0, 10, 10⟩ : Task).id :=
  (update_task_writes_only_present_fields
    [⟨"t0", "u", none, "a", none, "todo", "medium", none, none, none, [], 0, 10, 10⟩]
    "u" "t0" ⟨none, none, none, some "completed", none, none, none, none, none, none⟩
    ⟨"t0", "u", none, "a", none, "todo", "medium", none, none, none, [], 0, 10, 10⟩
    (List.mem_cons_self _ _)).1

/-- C5 (counterexample): when the database insert fails and the compensating
storage removal also fails, the handler returns the 500 outcome but the
uploaded bytes are still in storage, contradicting the claim's unconditional
"the uploaded bytes are removed, leaving no orphaned storage". -/
theorem upload_orphan_on_failed_cleanup_cex :
    (uploadAttachment ⟨true, false, false, true⟩ [] [] "u1" "t1"
        (some ⟨"a.txt", 5, "text/plain"⟩) "n.txt" "att1" 0).result =
      ApiResult.serverError "database insert failed" ∧
    "u1/t1/n.txt" ∈ (uploadAttachment ⟨true, false, false, true⟩ [] [] "u1" "t1"
        (some ⟨"a.txt", 5, "text/plain"⟩) "n.txt" "att1" 0).storage := by
  constructor
  · rfl
  · decide

/-- C5 (amended): an upload larger than 10 MiB is rejected with a bad-input
outcome before any storage or database I/O (empty I/O trace, state unchanged);
when the database insert fails after a successful byte upload, a 500 outcome
is returned, no attachment row is kept, removal of the uploaded bytes is
attempted as the last I/O, and whenever that removal succeeds the uploaded
bytes are no longer in storage. -/
theorem upload_size_gate_and_best_effort_cleanup (env : StoreEnv) (storage : List String)
    (atts : List Attachment) (uid taskId : String) (f : FileUpload)
    (newName newId : String) (now : Int) :
    (maxFileSize < f.size →
      uploadAttachment env storage atts uid taskId (some f) newName newId now =
        ⟨.badRequest "File size exceeds 10MB limit", storage, atts, []⟩) ∧
    (f.size ≤ maxFileSize → env.uploadOk = true → env.insertOk = false →
      (uploadAttachment env storage atts uid taskId (some f) newName newId now).result =
          .serverError "database insert failed" ∧
      (uploadAttachment env storage atts uid taskId (some f) newName newId now).attachments = atts ∧
      (uploadAttachment env storage atts uid taskId (some f) newName newId now).trace =
          [.storageUpload (uid ++ "/" ++ taskId ++ "/" ++ newName), .dbInsert newId,
            .storageRemove (uid ++ "/" ++ taskId ++ "/" ++ newName)] ∧
      (env.removeOk = true →
        (uid ++ "/" ++ taskId ++ "/" ++ newName) ∉
          (uploadAttachment env storage atts uid taskId (some f) newName newId now).storage)) := by
  constructor
  · intro hbig
    simp only [uploadAttachment]
    rw [if_pos hbig]
  · intro hsize hupl hins
    have hnotbig : ¬(f.size > maxFileSize) := by omega
    simp only [uploadAttachment]
    rw [if_neg hnotbig]
    simp only [hupl, hins, Bool.not_true, Bool.not_false, Bool.false_eq_true, if_false, if_true]
    refine ⟨trivial, trivial, trivial, ?_⟩
    intro hrem hmem
    rw [hrem] at hmem
    simp at hmem

/-- Witness for C5's amended theorem: an oversized upload is rejected with no
I/O. -/
theorem upload_size_gate_and_best_effort_cleanup_witness :
    uploadAttachment ⟨true, true, true, true⟩ [] [] "u1" "t1"
        (some ⟨"big.bin", 10485761, "application/x-bin"⟩) "n.bin" "att1" 0 =
      ⟨.badRequest "File size exceeds 10MB limit", [], [], []⟩ :=
  (upload_size_gate_and_best_effort_cleanup ⟨true, true, true, true⟩ [] [] "u1" "t1"
    ⟨"big.bin", 10485761, "application/x-bin"⟩ "n.bin" "att1" 0).1 (by decide)

/-- C6: attachment deletion removes the stored bytes first and the database
row second; when the byte removal fails the handler returns a 500 outcome and
the attachment rows (and storage) are unchanged, with no database delete ever
attempted. -/
theorem delete_attachment_bytes_first_record_kept (env : StoreEnv) (storage : List String)
    (atts : List Attachment) (uid taskId attachmentId : String) (a : Attachment)
    (ha : findAttachment atts uid taskId attachmentId = some a) :
    (env.removeOk = false →
      deleteAttachment env storage atts uid taskId attachmentId =
        ⟨.serverError "storage removal failed", storage, atts, [.storageRemove a.file_path]⟩) ∧
    (env.removeOk = true →
      (deleteAttachment env storage atts uid taskId attachmentId).trace =
        [.storageRemove a.file_path, .dbDelete a.id]) := by
  constructor
  · intro hrem
    simp only [deleteAttachment, ha, hrem, Bool.not_false, if_true]
  · intro hrem
    simp only [deleteAttachment, ha, hrem, Bool.not_true, Bool.false_eq_true, if_false]
    cases env.deleteOk <;> rfl

/-- Witness for C6 at a one-row attachment store with failing byte removal. -/
theorem delete_attachment_bytes_first_record_kept_witness :
    ((⟨false, false, false, false⟩ : StoreEnv).removeOk = false →
      deleteAttachment ⟨false, false, false, false⟩ ["u1/t1/n.txt"]
          [⟨"att1", "t1", "u1", "n.txt", "a.txt", 5, "text/plain", "u1/t1/n.txt", 0⟩]
          "u1" "t1" "att1" =
        ⟨.serverError "storage removal failed", ["u1/t1/n.txt"],
          [⟨"att1", "t1", "u1", "n.txt", "a.txt", 5, "text/plain", "u1/t1/n.txt", 0⟩],
          [.storageRemove "u1/t1/n.txt"]⟩) ∧
    ((⟨false, false, false, false⟩ : StoreEnv).removeOk = true →
      (deleteAttachment ⟨false, false, false, false⟩ ["u1/t1/n.txt"]
          [⟨"att1", "t1", "u1", "n.txt", "a.txt", 5, "text/plain", "u1/t1/n.txt", 0⟩]
          "u1" "t1" "att1").trace =
        [.storageRemove "u1/t1/n.txt", .dbDelete "att1"]) :=
  delete_attachment_bytes_first_record_kept ⟨false, false, false, false⟩ ["u1/t1/n.txt"]
    [⟨"att1", "t1", "u1", "n.txt", "a.txt", 5, "text/plain", "u1/t1/n.txt", 0⟩]
    "u1" "t1" "att1"
    ⟨"att1", "t1", "u1", "n.txt", "a.txt", 5, "text/plain", "u1/t1/n.txt", 0⟩ (by decide)

theorem matchesQuery_search_split (clk : Clock) (q : TaskQuery) (t : Task) (s : String)
    (hs : q.search = some s) (hne : s ≠ "") :
    matchesQuery clk q t =
      (matchesQuery clk { q with search := none } t && searchMatches s t) := by
  have hjs : jsOrNull q.search = some s := by
    rw [hs]
    show (if (s == "") = true then none else some s) = some s
    rw [if_neg (by simpa using hne)]
  unfold matchesQuery
  rw [hjs]
  show _ = (_ && _)
  simp only [jsOrNull]
  generalize (match q.project_id with
    | none => none
    | some s => if s == "" then none else some s : Option String) = p1
  cases p1 <;>
    cases hb1 : (match q.status with | none => true | some st => t.status == st) <;>
    cases hb2 : (match q.priority with | none => true | some pr => t.priority == pr) <;>
    cases hb3 : (match q.date_filter with
      | none => true
      | some df => matchesDateFilter clk df t.due_date) <;>
    cases hb4 : (match q.tag_filter with | none => true | some tg => t.tags.contains tg) <;>
    simp_all <;>
    cases searchMatches s t <;>
    simp_all

theorem reorder_foldl_preserves_foreign {uid : String} (pairs : List (Nat × String))
    (tasks : List Task) :
    (pairs.foldl (fun acc u => applyPositionUpdate acc uid u.2 (u.1 : Int)) tasks).filter
        (fun x => !(x.user_id == uid)) =
      tasks.filter (fun x => !(x.user_id == uid)) := by
  induction pairs generalizing tasks with
  | nil => rfl
  | cons a ps ih =>
    rw [List.foldl_cons, ih]
    unfold applyPositionUpdate
    apply filter_map_eq_filter_of
    · intro x hx
      have hne : (x.user_id == uid) = false := by
        cases h : x.user_id == uid
        · rfl
        · rw [h] at hx; cases hx
      rw [hne, Bool.and_false]
      rfl
    · intro x
      split <;> rfl

/-- C7: for a supplied (truthy) search string, a task of the caller appears in
the task list iff the other filters hold and the search string is a
case-insensitive substring of its title or of its (non-null) description; when
the search parameter is absent or empty, no search constraint applies. -/
theorem search_filter_ci_substring_semantics (clk : Clock) (tasks : List Task)
    (uid : String) (q : TaskQuery) (t : Task) :
    (∀ s : String, q.search = some s → s ≠ "" →
      (t ∈ getTasks clk tasks uid q ↔
        t ∈ tasks ∧ t.user_id = uid ∧
          matchesQuery clk { q with search := none } t = true ∧
          (ilikeContains s t.title = true ∨
            ∃ d, t.description = some d ∧ ilikeContains s d = true))) ∧
    (jsOrNull q.search = none →
      (t ∈ getTasks clk tasks uid q ↔
        t ∈ tasks ∧ t.user_id = uid ∧ matchesQuery clk { q with search := none } t = true)) := by
  constructor
  · intro s hs hne
    unfold getTasks sortTasks
    rw [List.mem_insertionSort, List.mem_filter, Bool.and_eq_true, beq_iff_eq,
      matchesQuery_search_split clk q t s hs hne, Bool.and_eq_true]
    have hsm : searchMatches s t = true ↔
        (ilikeContains s t.title = true ∨
          ∃ d, t.description = some d ∧ ilikeContains s d = true) := by
      unfold searchMatches
      rw [Bool.or_eq_true]
      cases hdesc : t.description <;> simp [hdesc]
    constructor
    · rintro ⟨hmem, huid, hrest, hsearch⟩
      exact ⟨hmem, huid, hrest, hsm.1 hsearch⟩
    · rintro ⟨hmem, huid, hrest, hsearch⟩
      exact ⟨hmem, huid, hrest, hsm.2 hsearch⟩
  · intro hs
    unfold getTasks sortTasks
    rw [List.mem_insertionSort, List.mem_filter, Bool.and_eq_true, beq_iff_eq]
    have heq : matchesQuery clk q t = matchesQuery clk { q with search := none } t := by
      unfold matchesQuery
      rw [hs]
      rfl
    rw [heq]

/-- Witness for C7: the search "rep" finds the task titled "Write a Report". -/
theorem search_filter_ci_substring_semantics_witness :
    (⟨"t0", "u", none, "Write a Report", none, "todo", "medium", none, none, none, [], 0, 10, 10⟩ : Task) ∈
        getTasks ⟨150, 100⟩
          [⟨"t0", "u", none, "Write a Report", none, "todo", "medium", none, none, none, [], 0, 10, 10⟩]
          "u" ⟨none, none, none, some "rep", none, none⟩ ↔
      (⟨"t0", "u", none, "Write a Report", none, "todo", "medium", none, none, none, [], 0, 10, 10⟩ : Task) ∈
          [⟨"t0", "u", none, "Write a Report", none, "todo", "medium", none, none, none, [], 0, 10, 10⟩] ∧
        (⟨"t0", "u", none, "Write a Report", none, "todo", "medium", none, none, none, [], 0, 10, 10⟩ : Task).user_id = "u" ∧
        matchesQuery ⟨150, 100⟩
            { (⟨none, none, none, some "rep", none, none⟩ : TaskQuery) with search := none }
            ⟨"t0", "u", none, "Write a Report", none, "todo", "medium", none, none, none, [], 0, 10, 10⟩ = true ∧
        (ilikeContains "rep"
            (⟨"t0", "u", none, "Write a Report", none, "todo", "medium", none, none, none, [], 0, 10, 10⟩ : Task).title = true ∨
          ∃ d, (⟨"t0", "u", none, "Write a Report", none, "todo", "medium", none, none, none, [], 0, 10, 10⟩ : Task).description = some d ∧
            ilikeContains "rep" d = true) :=
  (search_filter_ci_substring_semantics ⟨150, 100⟩
    [⟨"t0", "u", none, "Write a Report", none, "todo", "medium", none, none, none, [], 0, 10, 10⟩]
    "u" ⟨none, none, none, some "rep", none, none⟩
    ⟨"t0", "u", none, "Write a Report", none, "todo", "medium", none, none, none, [], 0, 10, 10⟩).1
    "rep" rfl (by decide)

/-- C4: every handler's store reads return only rows owned by the caller, and
every handler's store writes leave other users' rows untouched: list/read
endpoints yield only rows with the caller's user id, creates insert only rows
carrying the caller's user id, and update/delete/reorder leave the rows not
owned by the caller exactly as they were; the dashboard aggregation ignores
other users' rows entirely. -/
theorem ownership_scoping (clk : Clock) (tasks : List Task) (projects : List Project)
    (atts : List Attachment) (storage : List String) (env : StoreEnv) (uid : String) :
    (∀ q t, t ∈ getTasks clk tasks uid q → t.user_id = uid) ∧
    (∀ tid t, getTask tasks uid tid = some t → t.user_id = uid) ∧
    (∀ b newId now, (createTask tasks uid b newId now).2 = tasks ∨
      ∃ nt, (createTask tasks uid b newId now).2 = tasks ++ [nt] ∧ nt.user_id = uid) ∧
    (∀ tid b, (updateTaskRows tasks uid tid b).filter (fun x => !(x.user_id == uid)) =
      tasks.filter (fun x => !(x.user_id == uid))) ∧
    (∀ tid, (deleteTaskRows tasks uid tid).filter (fun x => !(x.user_id == uid)) =
      tasks.filter (fun x => !(x.user_id == uid))) ∧
    (∀ ids, (reorderTasks tasks uid ids).filter (fun x => !(x.user_id == uid)) =
      tasks.filter (fun x => !(x.user_id == uid))) ∧
    (∀ inc p, p ∈ getProjects projects uid inc → p.user_id = uid) ∧
    (∀ b newId now, (createProject projects uid b newId now).2 = projects ∨
      ∃ np, (createProject projects uid b newId now).2 = projects ++ [np] ∧ np.user_id = uid) ∧
    (∀ pid p, getProject projects uid pid = some p → p.user_id = uid) ∧
    (∀ pid b, (updateProjectRows projects uid pid b).filter (fun x => !(x.user_id == uid)) =
      projects.filter (fun x => !(x.user_id == uid))) ∧
    (∀ pid, (deleteProjectRows projects uid pid).filter (fun x => !(x.user_id == uid)) =
      projects.filter (fun x => !(x.user_id == uid))) ∧
    (∀ taskId file newName newId now,
      (uploadAttachment env storage atts uid taskId file newName newId now).attachments = atts ∨
      ∃ na, (uploadAttachment env storage atts uid taskId file newName newId now).attachments =
          atts ++ [na] ∧ na.user_id = uid) ∧
    (∀ taskId a, a ∈ listAttachments atts uid taskId → a.user_id = uid) ∧
    (∀ taskId attachmentId,
      (deleteAttachment env storage atts uid taskId attachmentId).attachments.filter
        (fun x => !(x.user_id == uid)) = atts.filter (fun x => !(x.user_id == uid))) ∧
    (∀ fn a, downloadFileRecord atts uid fn = some a → a.user_id = uid) ∧
    (∀ t, t ∈ (dashboardStats clk tasks projects uid).recentTasks → t.user_id = uid) ∧
    (∀ t' : Task, t'.user_id ≠ uid →
      dashboardStats clk (t' :: tasks) projects uid = dashboardStats clk tasks projects uid) := by
  have hforeign : ∀ (x : Task), (!(x.user_id == uid)) = true → (x.user_id == uid) = false := by
    intro x hx
    cases h : x.user_id == uid
    · rfl
    · rw [h] at hx; cases hx
  have hforeignP : ∀ (x : Project), (!(x.user_id == uid)) = true → (x.user_id == uid) = false := by
    intro x hx
    cases h : x.user_id == uid
    · rfl
    · rw [h] at hx; cases hx
  have hforeignA : ∀ (x : Attachment), (!(x.user_id == uid)) = true → (x.user_id == uid) = false := by
    intro x hx
    cases h : x.user_id == uid
    · rfl
    · rw [h] at hx; cases hx
  refine ⟨?_, ?_, ?_, ?_, ?_, ?_, ?_, ?_, ?_, ?_, ?_, ?_, ?_, ?_, ?_, ?_, ?_⟩
  · intro q t ht
    unfold getTasks sortTasks at ht
    rw [List.mem_insertionSort, List.mem_filter, Bool.and_eq_true, beq_iff_eq] at ht
    exact ht.2.1
  · intro tid t h
    have h2 := (mem_of_head?_filter h).2
    rw [Bool.and_eq_true, beq_iff_eq, beq_iff_eq] at h2
    exact h2.2
  · intro b newId now
    unfold createTask
    cases h : jsTruthy b.title
    · exact Or.inl rfl
    · exact Or.inr ⟨_, rfl, rfl⟩
  · intro tid b
    unfold updateTaskRows
    apply filter_map_eq_filter_of
    · intro x hx
      rw [hforeign x hx, Bool.and_false]
      rfl
    · intro x
      split <;> rfl
  · intro tid
    unfold deleteTaskRows
    apply filter_filter_eq_filter
    intro x hx
    rw [hforeign x hx, Bool.and_false]
    rfl
  · intro ids
    unfold reorderTasks
    exact reorder_foldl_preserves_foreign ids.enum tasks
  · intro inc p hp
    unfold getProjects at hp
    rw [List.mem_insertionSort, List.mem_filter, Bool.and_eq_true, beq_iff_eq] at hp
    exact hp.2.1
  · intro b newId now
    unfold createProject
    cases h : jsTruthy b.name
    · exact Or.inl rfl
    · exact Or.inr ⟨_, rfl, rfl⟩
  · intro pid p h
    have h2 := (mem_of_head?_filter h).2
    rw [Bool.and_eq_true, beq_iff_eq, beq_iff_eq] at h2
    exact h2.2
  · intro pid b
    unfold updateProjectRows
    apply filter_map_eq_filter_of
    · intro x hx
      rw [hforeignP x hx, Bool.and_false]
      rfl
    · intro x
      split <;> rfl
  · intro pid
    unfold deleteProjectRows
    apply filter_filter_eq_filter
    intro x hx
    rw [hforeignP x hx, Bool.and_false]
    rfl
  · intro taskId file newName newId now
    rcases file with _ | f
    · exact Or.inl rfl
    · simp only [uploadAttachment]
      by_cases hsz : f.size > maxFileSize
      · rw [if_pos hsz]
        exact Or.inl rfl
      · rw [if_neg hsz]
        cases hup : env.uploadOk
        · exact Or.inl rfl
        · cases hins : env.insertOk
          · exact Or.inl rfl
          · exact Or.inr ⟨_, rfl, rfl⟩
  · intro taskId a ha
    unfold listAttachments at ha
    rw [List.mem_insertionSort, List.mem_filter, Bool.and_eq_true, beq_iff_eq, beq_iff_eq] at ha
    exact ha.2.2
  · intro taskId attachmentId
    unfold deleteAttachment
    cases hfind : findAttachment atts uid taskId attachmentId
    · rfl
    · cases hrem : env.removeOk
      · rfl
      · cases hdel : env.deleteOk
        · rfl
        · exact filter_filter_eq_filter atts
            (fun x => !(x.id == attachmentId && x.task_id == taskId && x.user_id == uid))
            (fun x => !(x.user_id == uid))
            (fun x hx => by simp [hforeignA x hx])
  · intro fn a ha
    have h2 := (mem_of_head?_filter ha).2
    rw [Bool.and_eq_true, beq_iff_eq, beq_iff_eq] at h2
    exact h2.2
  · intro t ht
    replace ht : t ∈ ((tasks.filter
        (fun x => x.user_id == uid && decide (clk.now - 7 * dayMs ≤ x.created_at))).insertionSort
          taskCreatedDesc).take 5 := ht
    have h2 := List.mem_of_mem_take ht
    rw [List.mem_insertionSort, List.mem_filter, Bool.and_eq_true, beq_iff_eq] at h2
    exact h2.2.1
  · intro t' hne
    have hb : (t'.user_id == uid) = false := beq_eq_false_iff_ne.2 hne
    unfold dashboardStats
    simp [List.countP_cons, List.filter_cons, hb]

theorem foldl_apply_eq_map_posSteps (uid : String) (pairs : List (Nat × String)) :
    ∀ tasks : List Task,
      pairs.foldl (fun acc u => applyPositionUpdate acc uid u.2 (u.1 : Int)) tasks =
        tasks.map (posSteps uid pairs) := by
  induction pairs with
  | nil =>
    intro tasks
    show tasks = tasks.map (fun t => t)
    rw [List.map_id']
  | cons a ps ih =>
    intro tasks
    rw [List.foldl_cons, ih]
    unfold applyPositionUpdate
    rw [List.map_map]
    apply List.map_congr_left
    intro t _
    rfl

theorem posSteps_not_mem (uid : String) (pairs : List (Nat × String)) (t : Task)
    (h : t.id ∉ pairs.map Prod.snd) : posSteps uid pairs t = t := by
  induction pairs with
  | nil => rfl
  | cons a ps ih =>
    rw [List.map_cons] at h
    have h1 : t.id ≠ a.2 := fun he => h (by rw [he]; exact List.mem_cons_self _ _)
    have h2 : t.id ∉ ps.map Prod.snd := fun hm => h (List.mem_cons_of_mem _ hm)
    have hstep : posStep uid t a = t := by
      unfold posStep
      rw [if_neg]
      intro hcond
      rw [Bool.and_eq_true, beq_iff_eq] at hcond
      exact h1 hcond.1
    show posSteps uid ps (posStep uid t a) = t
    rw [hstep]
    exact ih h2

theorem posSteps_not_owner (uid : String) (pairs : List (Nat × String)) (t : Task)
    (h : t.user_id ≠ uid) : posSteps uid pairs t = t := by
  induction pairs with
  | nil => rfl
  | cons a ps ih =>
    have hstep : posStep uid t a = t := by
      unfold posStep
      rw [if_neg]
      intro hcond
      rw [Bool.and_eq_true, beq_iff_eq, beq_iff_eq] at hcond
      exact h hcond.2
    show posSteps uid ps (posStep uid t a) = t
    rw [hstep]
    exact ih

theorem posSteps_mem (uid : String) (pairs : List (Nat × String)) (t : Task) (i : Nat)
    (hnd : (pairs.map Prod.snd).Nodup) (hmem : (i, t.id) ∈ pairs) (hown : t.user_id = uid) :
    posSteps uid pairs t = { t with position := (i : Int) } := by
  induction pairs with
  | nil => cases hmem
  | cons a ps ih =>
    rw [List.map_cons, List.nodup_cons] at hnd
    rcases List.mem_cons.1 hmem with heq | hmem2
    · have ha2 : a.2 = t.id := by rw [← heq]
      have ha1 : a.1 = i := by rw [← heq]
      have hstep : posStep uid t a = { t with position := (a.1 : Int) } := by
        unfold posStep
        rw [if_pos]
        rw [Bool.and_eq_true, beq_iff_eq, beq_iff_eq]
        exact ⟨ha2.symm, hown⟩
      show posSteps uid ps (posStep uid t a) = _
      rw [hstep]
      have hnotin : ({ t with position := (a.1 : Int) } : Task).id ∉ ps.map Prod.snd := by
        show t.id ∉ ps.map Prod.snd
        rw [← ha2]
        exact hnd.1
      rw [posSteps_not_mem uid ps _ hnotin, ha1]
    · have ha2 : a.2 ≠ t.id := by
        intro he
        exact hnd.1 (he ▸ List.mem_map_of_mem Prod.snd hmem2)
      have hstep : posStep uid t a = t := by
        unfold posStep
        rw [if_neg]
        intro hcond
        rw [Bool.and_eq_true, beq_iff_eq] at hcond
        exact ha2 hcond.1.symm
      show posSteps uid ps (posStep uid t a) = _
      rw [hstep]
      exact ih hnd.2 hmem2

theorem reorderFn_id (uid : String) (ids : List String) (t : Task) :
    (reorderFn uid ids t).id = t.id := by
  unfold reorderFn
  split <;> rfl

theorem reorderFn_user_id (uid : String) (ids : List String) (t : Task) :
    (reorderFn uid ids t).user_id = t.user_id := by
  unfold reorderFn
  split <;> rfl

theorem reorderTasks_eq_map (tasks : List Task) (uid : String) (ids : List String)
    (hids : ids.Nodup) :
    reorderTasks tasks uid ids = tasks.map (reorderFn uid ids) := by
  rw [reorderTasks, foldl_apply_eq_map_posSteps]
  apply List.map_congr_left
  intro t _
  by_cases hu : t.user_id = uid
  · by_cases hmem : t.id ∈ ids
    · have hlt : ids.indexOf t.id < ids.length := List.indexOf_lt_length.2 hmem
      have hidx : (ids.indexOf t.id, t.id) ∈ ids.enum := by
        rw [List.mk_mem_enum_iff_getElem?, List.getElem?_eq_getElem hlt,
          List.getElem_indexOf hlt]
      have hnd : (ids.enum.map Prod.snd).Nodup := by
        rw [List.enum_map_snd]
        exact hids
      rw [posSteps_mem uid ids.enum t (ids.indexOf t.id) hnd hidx hu]
      unfold reorderFn
      rw [if_pos]
      rw [Bool.and_eq_true, beq_iff_eq]
      exact ⟨hu, by simpa using hmem⟩
    · have hnotin : t.id ∉ ids.enum.map Prod.snd := by
        rw [List.enum_map_snd]
        exact hmem
      rw [posSteps_not_mem uid ids.enum t hnotin]
      unfold reorderFn
      rw [if_neg]
      intro hcond
      rw [Bool.and_eq_true] at hcond
      exact hmem (by simpa using hcond.2)
  · rw [posSteps_not_owner uid ids.enum t hu]
    unfold reorderFn
    rw [if_neg]
    intro hcond
    rw [Bool.and_eq_true, beq_iff_eq] at hcond
    exact hu hcond.1

/-- C2: when the submitted task ids are distinct, each names a distinct stored
row of the caller, and every per-row update succeeds (updates in this model
always apply), the reorder handler sets each listed task's position to its
index in the submitted sequence, and a subsequent task read (position
ascending, creation time descending), restricted to the listed tasks, returns
them in exactly the submitted order — for sequences of any length. -/
theorem reorder_read_back_matches_submitted (clk : Clock) (tasks : List Task) (uid : String)
    (ids : List String) (hids : ids.Nodup) (hstore : (tasks.map Task.id).Nodup)
    (hown : ∀ i ∈ ids, ∃ t ∈ tasks, t.id = i ∧ t.user_id = uid) :
    (∀ p ∈ ids.enum, ∀ t ∈ reorderTasks tasks uid ids, t.id = p.2 →
      t.position = (p.1 : Int)) ∧
    ((getTasks clk (reorderTasks tasks uid ids) uid emptyQuery).filter
        (fun t => ids.contains t.id)).map Task.id = ids := by
  have hmap := reorderTasks_eq_map tasks uid ids hids
  constructor
  · rintro ⟨i, s⟩ hp t ht hid
    rw [hmap] at ht
    rcases List.mem_map.1 ht with ⟨x, hx, rfl⟩
    rw [reorderFn_id] at hid
    obtain ⟨hilt, higet⟩ := List.getElem?_eq_some.1 (List.mk_mem_enum_iff_getElem?.1 hp)
    have hsmem : s ∈ ids := higet ▸ List.getElem_mem hilt
    obtain ⟨t₀, ht₀, ht₀id, ht₀u⟩ := hown s hsmem
    have hxeq : x = t₀ := List.inj_on_of_nodup_map hstore hx ht₀ (by rw [hid, ht₀id])
    have hxu : x.user_id = uid := by rw [hxeq]; exact ht₀u
    have hxmem : x.id ∈ ids := by rw [hid]; exact hsmem
    have hfx : reorderFn uid ids x = { x with position := (ids.indexOf x.id : Int) } := by
      unfold reorderFn
      rw [if_pos]
      rw [Bool.and_eq_true, beq_iff_eq]
      exact ⟨hxu, by simpa using hxmem⟩
    rw [hfx]
    show (ids.indexOf x.id : Int) = (i : Int)
    have hidxi : ids.indexOf x.id = i := by
      rw [hid, ← higet]
      exact List.indexOf_getElem hids i hilt
    rw [hidxi]
  · rw [hmap]
    unfold getTasks sortTasks
    have hq : ∀ x ∈ tasks.map (reorderFn uid ids),
        (x.user_id == uid && matchesQuery clk emptyQuery x) = (x.user_id == uid) := by
      intro x _
      rw [matchesQuery_empty, Bool.and_true]
    rw [List.filter_congr hq]
    set f := reorderFn uid ids with hf
    set owned := (tasks.map f).filter (fun x => x.user_id == uid) with howned
    have hperm : (((owned.insertionSort taskLE).filter (fun t => ids.contains t.id))).Perm
        (owned.filter (fun t => ids.contains t.id)) :=
      (List.perm_insertionSort taskLE owned).filter _
    have hM : owned.filter (fun t => ids.contains t.id) =
        (tasks.filter (fun x => ids.contains x.id && x.user_id == uid)).map f := by
      rw [howned, List.filter_filter, filter_of_map]
      congr 1
      apply List.filter_congr
      intro x _
      rw [hf, reorderFn_id, reorderFn_user_id]
    have hMid : ((tasks.filter (fun x => ids.contains x.id && x.user_id == uid)).map f).map
        Task.id = (tasks.filter (fun x => ids.contains x.id && x.user_id == uid)).map Task.id := by
      rw [List.map_map]
      apply List.map_congr_left
      intro x _
      show (f x).id = x.id
      rw [hf, reorderFn_id]
    have hNnodup : ((tasks.filter (fun x => ids.contains x.id && x.user_id == uid)).map
        Task.id).Nodup :=
      ((List.filter_sublist tasks).map Task.id).nodup hstore
    have hsub1 : (tasks.filter (fun x => ids.contains x.id && x.user_id == uid)).map Task.id ⊆
        ids := by
      intro s hs
      rcases List.mem_map.1 hs with ⟨x, hxmem, rfl⟩
      have hx := (List.mem_filter.1 hxmem).2
      rw [Bool.and_eq_true] at hx
      simpa using hx.1
    have hsub2 : ids ⊆
        (tasks.filter (fun x => ids.contains x.id && x.user_id == uid)).map Task.id := by
      intro s hs
      obtain ⟨t₀, ht₀, ht₀id, ht₀u⟩ := hown s hs
      have ht₀mem : t₀ ∈ tasks.filter (fun x => ids.contains x.id && x.user_id == uid) := by
        rw [List.mem_filter, Bool.and_eq_true, beq_iff_eq]
        exact ⟨ht₀, by rw [ht₀id]; simpa using hs, ht₀u⟩
      exact ht₀id ▸ List.mem_map_of_mem Task.id ht₀mem
    have hNperm : ((tasks.filter (fun x => ids.contains x.id && x.user_id == uid)).map
        Task.id).Perm ids :=
      List.Subperm.antisymm (List.subperm_of_subset hNnodup hsub1)
        (List.subperm_of_subset hids hsub2)
    have hLperm : (((owned.insertionSort taskLE).filter
        (fun t => ids.contains t.id)).map Task.id).Perm ids := by
      refine ((hperm.map Task.id).trans ?_).trans hNperm
      rw [hM, hMid]
    have hLpos : ∀ t ∈ (owned.insertionSort taskLE).filter (fun t => ids.contains t.id),
        t.id ∈ ids ∧ t.position = (ids.indexOf t.id : Int) := by
      intro t htL
      have htM := hperm.mem_iff.1 htL
      rw [hM] at htM
      rcases List.mem_map.1 htM with ⟨x, hxN, rfl⟩
      have hx := (List.mem_filter.1 hxN).2
      rw [Bool.and_eq_true, beq_iff_eq] at hx
      have hxmem : x.id ∈ ids := by simpa using hx.1
      have hfx : f x = { x with position := (ids.indexOf x.id : Int) } := by
        rw [hf]
        unfold reorderFn
        rw [if_pos]
        rw [Bool.and_eq_true, beq_iff_eq]
        exact ⟨hx.2, by simpa using hxmem⟩
      constructor
      · rw [hf, reorderFn_id]
        exact hxmem
      · rw [hfx]
    have hsorted : List.Pairwise taskLE
        ((owned.insertionSort taskLE).filter (fun t => ids.contains t.id)) :=
      (List.sorted_insertionSort taskLE owned).filter _
    have hLnodup : (((owned.insertionSort taskLE).filter
        (fun t => ids.contains t.id)).map Task.id).Nodup :=
      hLperm.nodup_iff.2 hids
    have hdistinct : List.Pairwise (fun a b : Task => a.id ≠ b.id)
        ((owned.insertionSort taskLE).filter (fun t => ids.contains t.id)) :=
      List.pairwise_map.1 hLnodup
    have hfinal : List.Pairwise (fun a b : Task => ids.indexOf a.id < ids.indexOf b.id)
        ((owned.insertionSort taskLE).filter (fun t => ids.contains t.id)) := by
      refine (hsorted.and hdistinct).imp_of_mem ?_
      intro a b ha hb hab
      obtain ⟨haid, hapos⟩ := hLpos a ha
      obtain ⟨hbid, hbpos⟩ := hLpos b hb
      rcases hab with ⟨hle, hne⟩
      have hidx_ne : ids.indexOf a.id ≠ ids.indexOf b.id :=
        fun he => hne ((List.indexOf_inj haid hbid).1 he)
      unfold taskLE at hle
      rcases hle with hlt | ⟨heq, _⟩
      · rw [hapos, hbpos] at hlt
        exact_mod_cast hlt
      · rw [hapos, hbpos] at heq
        exact absurd (by exact_mod_cast heq) hidx_ne
    have hPmap : List.Pairwise (fun s1 s2 => ids.indexOf s1 < ids.indexOf s2)
        ((((owned.insertionSort taskLE).filter (fun t => ids.contains t.id))).map Task.id) :=
      List.pairwise_map.2 hfinal
    have hidsSorted : List.Pairwise (fun s1 s2 => ids.indexOf s1 < ids.indexOf s2) ids := by
      rw [List.pairwise_iff_getElem]
      intro i j hi hj hij
      rw [List.indexOf_getElem hids i hi, List.indexOf_getElem hids j hj]
      exact hij
    haveI : IsAntisymm String (fun s1 s2 => ids.indexOf s1 < ids.indexOf s2) :=
      ⟨fun a b h1 h2 => absurd (h1.trans h2) (lt_irrefl _)⟩
    exact List.eq_of_perm_of_sorted hLperm hPmap hidsSorted

/-- Witness for C2 at the spec's scenario A: two owned tasks reordered as
[t2, t0]. -/
theorem reorder_read_back_matches_submitted_witness :
    (∀ p ∈ (["t1", "t0"] : List String).enum,
      ∀ t ∈ reorderTasks
          [⟨"t0", "u", none, "a", none, "todo", "medium", none, none, none, [], 0, 10, 10⟩,
           ⟨"t1", "u", none, "b", none, "todo", "medium", none, none, none, [], 1, 20, 20⟩]
          "u" ["t1", "t0"], t.id = p.2 → t.position = (p.1 : Int)) ∧
    ((getTasks ⟨150, 100⟩
        (reorderTasks
          [⟨"t0", "u", none, "a", none, "todo", "medium", none, none, none, [], 0, 10, 10⟩,
           ⟨"t1", "u", none, "b", none, "todo", "medium", none, none, none, [], 1, 20, 20⟩]
          "u" ["t1", "t0"]) "u" emptyQuery).filter
        (fun t => (["t1", "t0"] : List String).contains t.id)).map Task.id = ["t1", "t0"] :=
  reorder_read_back_matches_submitted ⟨150, 100⟩
    [⟨"t0", "u", none, "a", none, "todo", "medium", none, none, none, [], 0, 10, 10⟩,
     ⟨"t1", "u", none, "b", none, "todo", "medium", none, none, none, [], 1, 20, 20⟩]
    "u" ["t1", "t0"] (by decide) (by decide) (by decide)

/-- Witness for C4: the caller's task is in their readable list and carries
their user id. -/
theorem ownership_scoping_witness :
    (⟨"t0", "u", none, "a", none, "todo", "medium", none, none, none, [], 0, 0, 0⟩ : Task).user_id =
      "u" :=
  (ownership_scoping ⟨0, 0⟩
    [⟨"t0", "u", none, "a", none, "todo", "medium", none, none, none, [], 0, 0, 0⟩]
    [] [] [] ⟨true, true, true, true⟩ "u").1 emptyQuery
    ⟨"t0", "u", none, "a", none, "todo", "medium", none, none, none, [], 0, 0, 0⟩ (by decide)

end TaskFlow
